import Mathlib

/-!
Shallow embedding of the IM@S news-notification plugin (`src/main.py`).

The embedding models the pure core of the change-detection pipeline:
the persisted dedup cache (`idx_cache` / `item_cache` plus the on-disk
`cache.json` record), the diff operation `_check_update`, the poll-cycle
orchestrator `_check_news_update`, message formatting `_format_news`
with image download `_download_image`, the media janitor
`_cleanup_images`, and the URL normalization inside `_get_latest_news`.

Python's process-wide string `hash` is modelled as an explicit parameter
`h : String → Int`: one Python process corresponds to one choice of `h`.
Filesystem effects (the image directory, the cache file) are modelled as
explicit state components threaded through the functions.
-/

namespace ImasNews

/-- One extracted news entry, mirroring the dict built in
`_get_latest_news` (`{'id', 'title', 'date', 'url', 'img_url'}`). -/
structure NewsItem where
  id : String
  title : String
  date : String
  url : String
  img_url : String
deriving DecidableEq, Repr

/-- The plugin's mutable cache state: `self.idx_cache` (a Python set of id
strings), `self.item_cache` (a list of news items), and the persisted
`cache.json` content (if the file exists). -/
structure SysState where
  idx_cache : Finset String
  item_cache : List NewsItem
  file : Option (Finset String × List NewsItem)
deriving DecidableEq

/-- Models `_save_cache`: writes `{'idx_cache': list(self.idx_cache),
'item_cache': self.item_cache}` to `cache.json`. The id list is stored
as a set, since `_load_cache` immediately rebuilds a set from it
(`set(data.get('idx_cache', []))`) and nothing reads its order. -/
def saveCache (s : SysState) : SysState :=
  { s with file := some (s.idx_cache, s.item_cache) }

/-- Models `_load_cache`: if `cache.json` exists, replaces `self.idx_cache` with
`set(data.get('idx_cache', []))` and `self.item_cache` with
`data.get('item_cache', [])`; otherwise leaves the state alone. -/
def loadCache (s : SysState) : SysState :=
  match s.file with
  | none => s
  | some d => { s with idx_cache := d.1, item_cache := d.2 }

/-- Models `_check_update`, with the fetched news list passed in as the result of
`_get_latest_news`: returns the filtered `new_items` list and, when it is
non-empty, the mutated-and-saved state (`idx_cache.update(...)`,
`item_cache = news_list[:5]`, `_save_cache()`). -/
def checkUpdate (s : SysState) (news_list : List NewsItem) :
    List NewsItem × SysState :=
  if news_list.isEmpty then ([], s)
  else
    let new_items := news_list.filter (fun n => decide (n.id ∉ s.idx_cache))
    if new_items.isEmpty then (new_items, s)
    else
      (new_items,
        saveCache { s with
          idx_cache := s.idx_cache ∪ (news_list.map NewsItem.id).toFinset,
          item_cache := news_list.take 5 })

/-- Models `_check_news_update` at the cache level: the returned list is the
sequence of items pushed as notifications, in emission order
(`for item in reversed(new_items)`); the cold branch
(`if not self.idx_cache`) runs `_check_update` and returns without
emitting. -/
def checkNewsUpdate (s : SysState) (news_list : List NewsItem) :
    SysState × List NewsItem :=
  if s.idx_cache = ∅ then ((checkUpdate s news_list).2, [])
  else
    let r := checkUpdate s news_list
    if r.1.isEmpty then (r.2, [])
    else (r.2, r.1.reverse)

/-- The cache-touching operations of the plugin: a scheduled poll cycle
(`_check_news_update` with whatever batch the fetch produced), the
explicit save in `terminate`, and the load in `initialize`. -/
inductive CacheOp where
  | poll (news : List NewsItem)
  | save
  | load
deriving Repr

/-- One operation applied to the cache state. -/
def stepOp (s : SysState) : CacheOp → SysState
  | .poll news => (checkNewsUpdate s news).1
  | .save => saveCache s
  | .load => loadCache s

/-- A sequence of cache operations, applied left to right. -/
def runOps (s : SysState) (ops : List CacheOp) : SysState :=
  ops.foldl stepOp s

/-- The retention invariant: the in-memory retained list and the retained
list recorded in the cache file both have at most 5 elements. -/
def CacheInv (s : SysState) : Prop :=
  s.item_cache.length ≤ 5 ∧
    ∀ d, s.file = some d → d.2.length ≤ 5

instance : DecidablePred CacheInv := fun s => by
  unfold CacheInv
  exact inferInstance

/-- The plugin's fresh in-memory state after `__init__`
(`idx_cache = set()`, `item_cache = []`) with no cache file on disk yet. -/
def initState : SysState := { idx_cache := ∅, item_cache := [], file := none }

/-! ### Media filename keys

`h : String → Int` stands for the Python builtin `hash` on strings in a
given process; each process run fixes one such `h`. -/

/-- The image filename built in `_format_news`:
`img_name = f"{abs(hash(news_item['id']))}.jpg"`. -/
def formatImgName (h : String → Int) (id : String) : String :=
  toString (h id).natAbs ++ ".jpg"

/-- The retained-file key built in `_cleanup_images`:
`f"{abs(hash(item['id']))}.jpg"`. -/
def cleanupKey (h : String → Int) (id : String) : String :=
  toString (h id).natAbs ++ ".jpg"

/-! ### Image download and message formatting -/

/-- Outcome of the single `client.get(url, timeout=30)` inside
`_download_image`: either an HTTP response with a status code, or an
exception (timeout, connection error, ...). -/
inductive FetchResult where
  | response (status : Nat)
  | error
deriving DecidableEq, Repr

/-- Models `_download_image`, over the set of files in the image directory:
returns the success flag and the directory contents afterwards. A file is
written under `save_name` only on a 200 response; a non-200 status or an
exception logs and returns `False` without creating the file. The
`HTTPX_AVAILABLE` guard is the leading early return. -/
def downloadImage (httpxAvailable : Bool) (files : Finset String)
    (save_name : String) (res : FetchResult) : Bool × Finset String :=
  if !httpxAvailable then (false, files)
  else
    match res with
    | .error => (false, files)
    | .response status =>
        if status = 200 then (true, insert save_name files)
        else (false, files)

/-- One component of the message chain assembled by `_format_news`. -/
inductive MsgComp where
  | plain (text : String)
  | image (file : String)
deriving DecidableEq, Repr

/-- Models `_format_news`: builds the message chain for one item and threads the
image-directory contents through the download attempt. `res` is the HTTP
outcome the download would see (unused when `img_url` is empty, since no
download is attempted then). -/
def formatNews (h : String → Int) (img_dir : String)
    (httpxAvailable : Bool) (files : Finset String)
    (item : NewsItem) (res : FetchResult) : List MsgComp × Finset String :=
  let chain₁ :=
    (if item.date ≠ "" then [MsgComp.plain ("【" ++ item.date ++ "】\n")]
     else []) ++ [MsgComp.plain (item.title ++ "\n")]
  if item.img_url ≠ "" then
    let img_name := formatImgName h item.id
    let dl := downloadImage httpxAvailable files img_name res
    let chain₂ :=
      if dl.1 then
        chain₁ ++ [MsgComp.image (img_dir ++ "/" ++ img_name),
                   MsgComp.plain "\n"]
      else chain₁
    (chain₂ ++ [MsgComp.plain ("▲" ++ item.url)], dl.2)
  else
    (chain₁ ++ [MsgComp.plain ("▲" ++ item.url)], files)

/-! ### Janitor -/

/-- Models `_cleanup_images`, over the set of files in the image directory:
`to_delete = set(os.listdir(img_dir)) - cached_files`, then each file in
`to_delete` is removed unless its `os.remove` raises (`delFail f = true`),
in which case that file alone is skipped and the loop continues. Returns
the directory contents afterwards. -/
def cleanupImages (h : String → Int) (existing : Finset String)
    (item_cache : List NewsItem) (delFail : String → Bool) : Finset String :=
  let cached_files := (item_cache.map (fun i => cleanupKey h i.id)).toFinset
  let to_delete := existing \ cached_files
  existing \ (to_delete.filter (fun f => !(delFail f)))

/-! ### URL normalization (`_get_latest_news`) -/

/-- Python's `s.startswith(p)`: a prefix test on the character sequence.
(Defined over `String.data` so that it evaluates by kernel reduction.) -/
def pyStartswith (s p : String) : Bool :=
  List.isPrefixOf p.data s.data

/-- Normalization of the detail link, from
`if news_url and not news_url.startswith('http'): news_url =
'https://idolmaster-official.jp' + news_url`. -/
def normalizeNewsUrl (news_url : String) : String :=
  if news_url ≠ "" && !(pyStartswith news_url "http") then
    "https://idolmaster-official.jp" ++ news_url
  else news_url

/-- Normalization of the thumbnail link, from the `img_url` branch:
protocol-relative URLs get `https:` prepended, other non-`http`-prefixed
URLs get the site origin prepended. -/
def normalizeImgUrl (img_url : String) : String :=
  if img_url ≠ "" && !(pyStartswith img_url "http") then
    if pyStartswith img_url "//" then "https:" ++ img_url
    else "https://idolmaster-official.jp" ++ img_url
  else img_url

/-! ### Concrete fixtures used to instantiate the statements -/

/-- A concrete news item (the newest in the example batch). -/
def itemA : NewsItem :=
  ⟨"https://idolmaster-official.jp/news/detail/3", "T3", "2026.10.10",
    "https://idolmaster-official.jp/news/detail/3", ""⟩

/-- A concrete news item (middle of the example batch). -/
def itemB : NewsItem :=
  ⟨"https://idolmaster-official.jp/news/detail/2", "T2", "2026.10.09",
    "https://idolmaster-official.jp/news/detail/2", ""⟩

/-- A concrete news item (oldest in the example batch). -/
def itemC : NewsItem :=
  ⟨"https://idolmaster-official.jp/news/detail/1", "T1", "2026.10.08",
    "https://idolmaster-official.jp/news/detail/1", ""⟩

/-- A concrete news item carrying a media URL. -/
def itemImg : NewsItem :=
  ⟨"https://idolmaster-official.jp/news/detail/9", "T9", "2026.10.11",
    "https://idolmaster-official.jp/news/detail/9",
    "https://idolmaster-official.jp/assets/9.png"⟩

/-- A warm state: one id already seen, nothing retained yet. -/
def warmState : SysState :=
  { idx_cache := {"https://idolmaster-official.jp/news/detail/0"},
    item_cache := [], file := none }

/-! ## Helper lemmas -/

theorem checkUpdate_fst_eq (s : SysState) (news : List NewsItem) :
    (checkUpdate s news).1 =
      news.filter (fun n => decide (n.id ∉ s.idx_cache)) := by
  unfold checkUpdate
  by_cases h : news.isEmpty = true
  · rw [List.isEmpty_iff] at h
    subst h
    simp
  · simp only [Bool.not_eq_true] at h
    simp only [h, Bool.false_eq_true, if_false]
    split <;> rfl

theorem checkUpdate_snd_eq (s : SysState) (news : List NewsItem) :
    (checkUpdate s news).2 =
      if (news.filter (fun n => decide (n.id ∉ s.idx_cache))).isEmpty then s
      else
        saveCache { s with
          idx_cache := s.idx_cache ∪ (news.map NewsItem.id).toFinset,
          item_cache := news.take 5 } := by
  unfold checkUpdate
  by_cases h : news.isEmpty = true
  · rw [List.isEmpty_iff] at h
    subst h
    simp
  · simp only [Bool.not_eq_true] at h
    simp only [h, Bool.false_eq_true, if_false]
    split <;> simp_all

theorem checkNewsUpdate_state_eq (s : SysState) (news : List NewsItem) :
    (checkNewsUpdate s news).1 = (checkUpdate s news).2 := by
  unfold checkNewsUpdate
  by_cases h : s.idx_cache = ∅
  · simp [h]
  · simp only [h, if_false]
    by_cases h2 : (checkUpdate s news).1.isEmpty = true
    · simp [h2]
    · simp [h2]

theorem slashslash_not_http (l : List Char)
    (h : List.isPrefixOf ['/', '/'] l = true) :
    List.isPrefixOf ['h', 't', 't', 'p'] l = false := by
  cases l with
  | nil => exact absurd h (by decide)
  | cons c rest =>
      have hc : c = '/' := by
        by_cases hb : ('/' == c) = true
        · exact (eq_of_beq hb).symm
        · rw [List.isPrefixOf] at h
          rw [Bool.not_eq_true] at hb
          rw [hb, Bool.false_and] at h
          exact absurd h Bool.false_ne_true
      subst hc
      rw [List.isPrefixOf]
      rw [show (('h' == '/') : Bool) = false from rfl, Bool.false_and]

theorem filter_of_empty_idx (s : SysState) (news : List NewsItem)
    (hempty : s.idx_cache = ∅) :
    news.filter (fun n => decide (n.id ∉ s.idx_cache)) = news := by
  refine List.filter_eq_self.mpr ?_
  intro a _
  simp [hempty]

/-! ## Claim theorems -/

/-- C1: the dedup diff `_check_update` returns exactly those candidates
whose id is not in the seen set at call time, and the returned novel
subset preserves the relative order of the candidate batch. -/
theorem diff_returns_unseen_in_order (s : SysState) (news : List NewsItem) :
    (checkUpdate s news).1 =
      news.filter (fun n => decide (n.id ∉ s.idx_cache)) ∧
    (checkUpdate s news).1.Sublist news ∧
    (∀ n, n ∈ (checkUpdate s news).1 ↔ n ∈ news ∧ n.id ∉ s.idx_cache) := by
  refine ⟨checkUpdate_fst_eq s news, ?_, ?_⟩
  · rw [checkUpdate_fst_eq]
    exact List.filter_sublist news
  · intro n
    rw [checkUpdate_fst_eq]
    simp [List.mem_filter]

/-- C2: if the novel subset is non-empty, the seen set afterwards contains
every candidate's id (the full batch) and the retained list is replaced
wholesale with the first 5 candidates; if the novel subset is empty, the
state (seen set, retained list, cache file) is left untouched. -/
theorem diff_update_frame (s : SysState) (news : List NewsItem) :
    ((checkUpdate s news).1 ≠ [] →
      (∀ n ∈ news, n.id ∈ (checkUpdate s news).2.idx_cache) ∧
      (checkUpdate s news).2.item_cache = news.take 5) ∧
    ((checkUpdate s news).1 = [] → (checkUpdate s news).2 = s) := by
  constructor
  · intro hne
    rw [checkUpdate_fst_eq] at hne
    have hfe : (news.filter (fun n => decide (n.id ∉ s.idx_cache))).isEmpty
        = false := by
      simpa [List.isEmpty_iff] using hne
    rw [checkUpdate_snd_eq]
    simp only [hfe, Bool.false_eq_true, if_false]
    refine ⟨?_, rfl⟩
    intro n hn
    simp only [saveCache, Finset.mem_union, List.mem_toFinset, List.mem_map]
    exact Or.inr ⟨n, hn, rfl⟩
  · intro he
    rw [checkUpdate_fst_eq] at he
    rw [checkUpdate_snd_eq, he]
    simp

/-- C2 witness: a concrete batch with a novel item seeds the cache with
all candidate ids and retains the first 5 candidates. -/
theorem diff_update_frame_witness :
    (checkUpdate initState [itemA, itemB]).1 ≠ [] ∧
    ((∀ n ∈ [itemA, itemB],
        n.id ∈ (checkUpdate initState [itemA, itemB]).2.idx_cache) ∧
      (checkUpdate initState [itemA, itemB]).2.item_cache =
        [itemA, itemB].take 5) :=
  ⟨by decide, (diff_update_frame initState [itemA, itemB]).1 (by decide)⟩

/-- C3: a poll cycle starting from an empty seen set with a non-empty
candidate batch emits no notifications, and afterwards the seen set
contains every candidate's id and the retained list is the first 5
candidates. -/
theorem cold_cycle_silent_and_seeded (s : SysState) (news : List NewsItem)
    (hempty : s.idx_cache = ∅) (hne : news ≠ []) :
    (checkNewsUpdate s news).2 = [] ∧
    (∀ n ∈ news, n.id ∈ (checkNewsUpdate s news).1.idx_cache) ∧
    (checkNewsUpdate s news).1.item_cache = news.take 5 := by
  have hemit : (checkNewsUpdate s news).2 = [] := by
    unfold checkNewsUpdate
    simp [hempty]
  have hfe : (news.filter (fun n => decide (n.id ∉ s.idx_cache))).isEmpty
      = false := by
    rw [filter_of_empty_idx s news hempty]
    simpa [List.isEmpty_iff] using hne
  have hsnd := checkUpdate_snd_eq s news
  rw [hfe] at hsnd
  simp only [Bool.false_eq_true, if_false] at hsnd
  rw [checkNewsUpdate_state_eq, hsnd]
  refine ⟨hemit, ?_, rfl⟩
  intro n hn
  simp only [saveCache, Finset.mem_union, List.mem_toFinset, List.mem_map]
  exact Or.inr ⟨n, hn, rfl⟩

/-- C3 witness: a concrete cold cycle on a two-item batch. -/
theorem cold_cycle_silent_and_seeded_witness :
    initState.idx_cache = ∅ ∧ [itemA, itemB] ≠ [] ∧
    ((checkNewsUpdate initState [itemA, itemB]).2 = [] ∧
      (∀ n ∈ [itemA, itemB],
        n.id ∈ (checkNewsUpdate initState [itemA, itemB]).1.idx_cache) ∧
      (checkNewsUpdate initState [itemA, itemB]).1.item_cache =
        [itemA, itemB].take 5) :=
  ⟨by decide, by decide,
    cold_cycle_silent_and_seeded initState [itemA, itemB]
      (by decide) (by decide)⟩

/-- C4 counterexample: with an empty seen set and the non-empty batch
`[itemA]`, `_check_update` itself returns a non-empty novel subset (the
whole batch), contrary to the claim that its returned novel subset is
empty on the first-ever poll. -/
theorem cold_diff_nonempty_cex :
    initState.idx_cache = ∅ ∧ [itemA] ≠ [] ∧
    (checkUpdate initState [itemA]).1 ≠ [] := by
  decide

/-- C4 (amended): on the first-ever poll (empty seen set, non-empty
batch), `_check_update` seeds the cache but returns the entire candidate
batch as novel; cold-start silence holds only because the caller
`_check_news_update` discards that return value and emits nothing. -/
theorem cold_diff_returns_full_batch (s : SysState) (news : List NewsItem)
    (hempty : s.idx_cache = ∅) (hne : news ≠ []) :
    (checkUpdate s news).1 = news ∧
    (∀ n ∈ news, n.id ∈ (checkUpdate s news).2.idx_cache) ∧
    (checkNewsUpdate s news).2 = [] := by
  have hfst : (checkUpdate s news).1 = news := by
    rw [checkUpdate_fst_eq]
    exact filter_of_empty_idx s news hempty
  have hfe : (news.filter (fun n => decide (n.id ∉ s.idx_cache))).isEmpty
      = false := by
    rw [filter_of_empty_idx s news hempty]
    simpa [List.isEmpty_iff] using hne
  have hsnd := checkUpdate_snd_eq s news
  rw [hfe] at hsnd
  simp only [Bool.false_eq_true, if_false] at hsnd
  refine ⟨hfst, ?_, ?_⟩
  · intro n hn
    rw [hsnd]
    simp only [saveCache, Finset.mem_union, List.mem_toFinset, List.mem_map]
    exact Or.inr ⟨n, hn, rfl⟩
  · unfold checkNewsUpdate
    simp [hempty]

/-- C4 witness: the amended statement at a concrete cold two-item batch. -/
theorem cold_diff_returns_full_batch_witness :
    initState.idx_cache = ∅ ∧ [itemA, itemC] ≠ [] ∧
    ((checkUpdate initState [itemA, itemC]).1 = [itemA, itemC] ∧
      (∀ n ∈ [itemA, itemC],
        n.id ∈ (checkUpdate initState [itemA, itemC]).2.idx_cache) ∧
      (checkNewsUpdate initState [itemA, itemC]).2 = []) :=
  ⟨by decide, by decide,
    cold_diff_returns_full_batch initState [itemA, itemC]
      (by decide) (by decide)⟩

theorem cacheInv_saveCache (s : SysState) (h : CacheInv s) :
    CacheInv (saveCache s) := by
  refine ⟨h.1, ?_⟩
  intro d hd
  simp only [saveCache, Option.some.injEq] at hd
  rw [← hd]
  exact h.1

theorem cacheInv_loadCache (s : SysState) (h : CacheInv s) :
    CacheInv (loadCache s) := by
  unfold loadCache
  cases hf : s.file with
  | none => exact h
  | some d => exact ⟨h.2 d hf, fun e he => h.2 e (hf ▸ he)⟩

theorem cacheInv_checkUpdate (s : SysState) (h : CacheInv s)
    (news : List NewsItem) : CacheInv (checkUpdate s news).2 := by
  rw [checkUpdate_snd_eq]
  split
  · exact h
  · refine cacheInv_saveCache _ ⟨?_, h.2⟩
    simp only [List.length_take]
    exact min_le_left 5 news.length

theorem cacheInv_stepOp (s : SysState) (h : CacheInv s) (op : CacheOp) :
    CacheInv (stepOp s op) := by
  cases op with
  | poll news =>
      rw [stepOp, checkNewsUpdate_state_eq]
      exact cacheInv_checkUpdate s h news
  | save => exact cacheInv_saveCache s h
  | load => exact cacheInv_loadCache s h

theorem cacheInv_runOps (s : SysState) (h : CacheInv s) (ops : List CacheOp) :
    CacheInv (runOps s ops) := by
  induction ops generalizing s with
  | nil => exact h
  | cons op rest ih => exact ih (stepOp s op) (cacheInv_stepOp s h op)

/-- C5: from any state satisfying the retention invariant (in particular
the fresh state), any sequence of cache-touching operations — poll cycles
(the wholesale replacement in `_check_update`), saves, and the restore in
`_load_cache` — leaves the retained list with at most 5 elements. -/
theorem retention_bound (s : SysState) (h : CacheInv s)
    (ops : List CacheOp) :
    (runOps s ops).item_cache.length ≤ 5 :=
  (cacheInv_runOps s h ops).1

/-- C5 witness: the fresh state satisfies the invariant, and a concrete
poll–save–load sequence keeps the retained list within the bound. -/
theorem retention_bound_witness :
    CacheInv initState ∧
    (runOps initState
        [CacheOp.poll [itemA, itemB, itemC], CacheOp.save,
          CacheOp.load]).item_cache.length ≤ 5 :=
  ⟨by decide,
    retention_bound initState (by decide)
      [CacheOp.poll [itemA, itemB, itemC], CacheOp.save, CacheOp.load]⟩

/-- C6: on a warm cycle (non-empty seen set), the emitted notification
sequence is exactly the reverse of the novel subset returned by the diff
(one emission per novel item, oldest-novel-first). -/
theorem warm_emission_reversed (s : SysState) (news : List NewsItem)
    (hwarm : s.idx_cache ≠ ∅) :
    (checkNewsUpdate s news).2 = ((checkUpdate s news).1).reverse := by
  unfold checkNewsUpdate
  simp only [hwarm, if_false]
  by_cases h2 : (checkUpdate s news).1.isEmpty = true
  · rw [List.isEmpty_iff] at h2
    simp [h2]
  · simp [h2]

/-- C6 witness: with candidates `[A(newest), B, C]` all novel against a
warm state, the emission order is `[C, B, A]`. -/
theorem warm_emission_reversed_witness :
    warmState.idx_cache ≠ ∅ ∧
    (checkNewsUpdate warmState [itemA, itemB, itemC]).2 =
      ((checkUpdate warmState [itemA, itemB, itemC]).1).reverse ∧
    ((checkUpdate warmState [itemA, itemB, itemC]).1).reverse =
      [itemC, itemB, itemA] :=
  ⟨by decide,
    warm_emission_reversed warmState [itemA, itemB, itemC] (by decide),
    by decide⟩

/-- C7: the janitor keeps a pre-existing file iff it is a retained key or
its own deletion failed (so each deletion error skips only that file),
creates nothing, and — when every deletion succeeds — every file remaining
in the media directory is the key of some retained item. -/
theorem cleanup_reconcile (h : String → Int) (existing : Finset String)
    (cache : List NewsItem) (delFail : String → Bool) :
    (∀ f ∈ existing,
      (f ∈ cleanupImages h existing cache delFail ↔
        f ∈ (cache.map (fun i => cleanupKey h i.id)).toFinset ∨
          delFail f = true)) ∧
    cleanupImages h existing cache delFail ⊆ existing ∧
    ((∀ f, delFail f = false) →
      ∀ f ∈ cleanupImages h existing cache delFail,
        ∃ i ∈ cache, cleanupKey h i.id = f) := by
  have hmem : ∀ f ∈ existing,
      (f ∈ cleanupImages h existing cache delFail ↔
        f ∈ (cache.map (fun i => cleanupKey h i.id)).toFinset ∨
          delFail f = true) := by
    intro f hf
    unfold cleanupImages
    by_cases hc : f ∈ (cache.map (fun i => cleanupKey h i.id)).toFinset
    · simp [Finset.mem_sdiff, Finset.mem_filter, hf, hc]
    · by_cases hd : delFail f = true
      · simp [Finset.mem_sdiff, Finset.mem_filter, hf, hc, hd]
      · simp only [Bool.not_eq_true] at hd
        simp [Finset.mem_sdiff, Finset.mem_filter, hf, hc, hd]
  refine ⟨hmem, ?_, ?_⟩
  · unfold cleanupImages
    exact Finset.sdiff_subset
  · intro hall f hfres
    have hf : f ∈ existing := by
      have : cleanupImages h existing cache delFail ⊆ existing := by
        unfold cleanupImages
        exact Finset.sdiff_subset
      exact this hfres
    rcases (hmem f hf).mp hfres with hc | hd
    · simp only [List.mem_toFinset, List.mem_map] at hc
      obtain ⟨i, hi, hkey⟩ := hc
      exact ⟨i, hi, hkey⟩
    · rw [hall f] at hd
      exact absurd hd Bool.false_ne_true

/-- C7 witness: a concrete directory with one retained key and one
orphan, all deletions succeeding: only the retained key survives and the
conclusion of the reconciliation theorem holds there. -/
theorem cleanup_reconcile_witness :
    (∀ f ∈ ({"3.jpg", "9.jpg"} : Finset String),
      (f ∈ cleanupImages (fun _ => 3) {"3.jpg", "9.jpg"} [itemA]
          (fun _ => false) ↔
        f ∈ ([itemA].map (fun i => cleanupKey (fun _ => 3) i.id)).toFinset ∨
          (fun _ : String => false) f = true)) ∧
    (∀ f ∈ cleanupImages (fun _ => 3) {"3.jpg", "9.jpg"} [itemA]
        (fun _ => false),
      ∃ i ∈ [itemA], cleanupKey (fun _ => 3) i.id = f) :=
  ⟨(cleanup_reconcile (fun _ => 3) {"3.jpg", "9.jpg"} [itemA]
      (fun _ => false)).1,
    (cleanup_reconcile (fun _ => 3) {"3.jpg", "9.jpg"} [itemA]
      (fun _ => false)).2.2 (fun _ => rfl)⟩

/-- C8: when the media download for an item fails (exception/timeout or a
non-200 response), the formatted payload still carries the date text (if
any), the title, and the detail URL, contains no image component, and the
media directory is unchanged (no file created under the item's key). -/
theorem download_failure_payload (h : String → Int) (img_dir : String)
    (b : Bool) (files : Finset String) (item : NewsItem) (res : FetchResult)
    (himg : item.img_url ≠ "")
    (hres : res = FetchResult.error ∨
      ∃ st, res = FetchResult.response st ∧ st ≠ 200) :
    (formatNews h img_dir b files item res).1 =
      (if item.date ≠ "" then [MsgComp.plain ("【" ++ item.date ++ "】\n")]
       else []) ++
      [MsgComp.plain (item.title ++ "\n"), MsgComp.plain ("▲" ++ item.url)] ∧
    (∀ p, MsgComp.image p ∉ (formatNews h img_dir b files item res).1) ∧
    (formatNews h img_dir b files item res).2 = files := by
  have hdl : downloadImage b files (formatImgName h item.id) res
      = (false, files) := by
    unfold downloadImage
    rcases hres with he | ⟨st, hst, hne⟩
    · rw [he]
      cases b <;> rfl
    · rw [hst]
      cases b with
      | false => rfl
      | true => simp [hne]
  have hfmt : (formatNews h img_dir b files item res) =
      ((if item.date ≠ ""
          then [MsgComp.plain ("【" ++ item.date ++ "】\n")] else []) ++
        [MsgComp.plain (item.title ++ "\n"),
          MsgComp.plain ("▲" ++ item.url)], files) := by
    unfold formatNews
    simp only [himg, if_true, hdl, List.append_assoc, List.cons_append,
      List.nil_append]
    split <;> simp
  refine ⟨by rw [hfmt], ?_, by rw [hfmt]⟩
  intro p hp
  rw [hfmt] at hp
  simp only [List.mem_append, List.mem_cons, List.not_mem_nil] at hp
  rcases hp with hp | hp
  · split at hp <;> simp_all
  · simp_all

/-- C8 witness: a concrete item with a media URL and a 404 response:
the payload is date, title, link only, and no file is created. -/
theorem download_failure_payload_witness :
    itemImg.img_url ≠ "" ∧
    ((formatNews (fun _ => 7) "images" true ∅ itemImg
        (FetchResult.response 404)).1 =
      (if itemImg.date ≠ ""
        then [MsgComp.plain ("【" ++ itemImg.date ++ "】\n")] else []) ++
      [MsgComp.plain (itemImg.title ++ "\n"),
        MsgComp.plain ("▲" ++ itemImg.url)] ∧
      (∀ p, MsgComp.image p ∉ (formatNews (fun _ => 7) "images" true ∅
          itemImg (FetchResult.response 404)).1) ∧
      (formatNews (fun _ => 7) "images" true ∅ itemImg
          (FetchResult.response 404)).2 = ∅) :=
  ⟨by decide,
    download_failure_payload (fun _ => 7) "images" true ∅ itemImg
      (FetchResult.response 404) (by decide)
      (Or.inr ⟨404, rfl, by decide⟩)⟩

/-- C9 counterexample: a protocol-relative detail URL is not resolved to
`https:`; the extractor prepends the site origin to it instead. -/
theorem protocol_relative_newsUrl_cex :
    normalizeNewsUrl "//cdn.idolmaster-official.jp/img.png" =
      "https://idolmaster-official.jp//cdn.idolmaster-official.jp/img.png" ∧
    normalizeNewsUrl "//cdn.idolmaster-official.jp/img.png" ≠
      "https://cdn.idolmaster-official.jp/img.png" := by
  decide

/-- C9 (amended): a non-empty detail URL not starting with `http`
(including protocol-relative ones) gets the site origin prepended — there
is no protocol-relative case for detail URLs; the media URL gets both
rules: protocol-relative resolves to `https:`, other non-`http` URLs get
the origin prepended; URLs already starting with `http` are unchanged. -/
theorem url_normalization_amended (u : String) :
    (u ≠ "" → pyStartswith u "http" = false →
      normalizeNewsUrl u = "https://idolmaster-official.jp" ++ u) ∧
    (pyStartswith u "//" = true → normalizeImgUrl u = "https:" ++ u) ∧
    (u ≠ "" → pyStartswith u "http" = false → pyStartswith u "//" = false →
      normalizeImgUrl u = "https://idolmaster-official.jp" ++ u) ∧
    (pyStartswith u "http" = true →
      normalizeNewsUrl u = u ∧ normalizeImgUrl u = u) := by
  refine ⟨?_, ?_, ?_, ?_⟩
  · intro hne hs
    unfold normalizeNewsUrl
    simp [hne, hs]
  · intro hss
    have hne : u ≠ "" := by
      intro he
      rw [he] at hss
      exact absurd hss (by decide)
    have hnh : pyStartswith u "http" = false := by
      unfold pyStartswith at hss ⊢
      rw [show ("http" : String).data = ['h', 't', 't', 'p'] from rfl]
      rw [show ("//" : String).data = ['/', '/'] from rfl] at hss
      exact slashslash_not_http u.data hss
    unfold normalizeImgUrl
    simp [hne, hnh, hss]
  · intro hne hnh hnss
    unfold normalizeImgUrl
    simp [hne, hnh, hnss]
  · intro hs
    have hne : u ≠ "" := by
      intro he
      rw [he] at hs
      exact Bool.false_ne_true hs
    constructor
    · unfold normalizeNewsUrl
      simp [hs]
    · unfold normalizeImgUrl
      simp [hs]

/-- C9 witness: the amended statement at concrete relative,
protocol-relative and absolute URLs. -/
theorem url_normalization_amended_witness :
    normalizeNewsUrl "/news/detail/1" =
      "https://idolmaster-official.jp/news/detail/1" ∧
    normalizeImgUrl "//cdn.example.jp/a.png" =
      "https://cdn.example.jp/a.png" ∧
    normalizeImgUrl "/assets/a.png" =
      "https://idolmaster-official.jp/assets/a.png" ∧
    normalizeNewsUrl "https://idolmaster-official.jp/news/detail/2" =
      "https://idolmaster-official.jp/news/detail/2" :=
  ⟨(url_normalization_amended "/news/detail/1").1 (by decide) (by decide),
    (url_normalization_amended "//cdn.example.jp/a.png").2.1 (by decide),
    (url_normalization_amended "/assets/a.png").2.2.1
      (by decide) (by decide) (by decide),
    ((url_normalization_amended
      "https://idolmaster-official.jp/news/detail/2").2.2.2 (by decide)).1⟩

/-- C10: within one process (one choice of the builtin string hash `h`),
`_format_news` and `_cleanup_images` derive the identical filename from an
id; but the filename is not a function of the id alone — two processes
whose (salted, process-randomized) hash functions differ on the id produce
different filenames for the same item, so cross-run determinism fails. -/
theorem mediaKey_process_dependent :
    (∀ (h : String → Int) (id : String),
      formatImgName h id = cleanupKey h id) ∧
    formatImgName (fun _ => 0)
        "https://idolmaster-official.jp/news/detail/1" ≠
      formatImgName (fun _ => 1)
        "https://idolmaster-official.jp/news/detail/1" :=
  ⟨fun _ _ => rfl, by decide⟩

end ImasNews
